import Mathlib

/-!
Verification of the rust-nbd server (src/server.rs, src/client.rs) against its
specification.  The embedding models:

* the in-memory backing store `MemBlocks` (`RefCell<Vec<u8>>`), with release-profile
  Rust semantics for `usize` arithmetic (wrapping modulo 2^64 on a 64-bit target) and
  with slice-indexing panics modelled explicitly;
* the generic `Blocks` trait as a record of functional operations;
* `Export::read` / `Export::write` and the transmission loop `Server::handle_ops`,
  both at request granularity and at byte granularity;
* the wire codec (big-endian integers, request frames, option replies), whose
  encoder/decoder helpers mirror the byteorder crate and the missing `proto`
  module; those parts are modelled from the specification and are marked as such.

Bytes are `Nat` values (< 256 for everything the encoders produce); streams are
`List Nat`.
-/

namespace Nbd

/-- `usize::MAX + 1` on the 64-bit target the server is built for. -/
def USIZE : Nat := 2 ^ 64

/-- Size of the per-connection scratch buffer in `Server::handle_ops`
(`vec![0u8; 4096 * 64]`). -/
def scratchLen : Nat := 4096 * 64

/-! ## Big-endian byte codec (byteorder crate semantics) -/

/-- Big-endian encoding of `n` into exactly `k` bytes, truncating to `n % 256^k`
(the behavior of `write_uNN::<BE>` at the value's width). -/
def beBytes : Nat → Nat → List Nat
  | 0, _ => []
  | k+1, n => beBytes k (n / 256) ++ [n % 256]

/-- Accumulator-style big-endian decoder: consume `k` bytes from the front. -/
def readBEAux : Nat → Nat → List Nat → Option (Nat × List Nat)
  | 0, acc, s => some (acc, s)
  | _+1, _, [] => none
  | k+1, acc, b :: s => readBEAux k (acc * 256 + b) s

/-- Read a `k`-byte big-endian integer from the front of a stream
(`read_uNN::<BE>`); `none` models end-of-stream. -/
def readBE (k : Nat) (s : List Nat) : Option (Nat × List Nat) :=
  readBEAux k 0 s

/-- Read exactly `n` raw bytes from the front of a stream (`read_exact`). -/
def readBytes : Nat → List Nat → Option (List Nat × List Nat)
  | 0, s => some ([], s)
  | _+1, [] => none
  | n+1, b :: s =>
    match readBytes n s with
    | some (bs, rest) => some (b :: bs, rest)
    | none => none

/-! ## Wire constants (from the spec's data model; the proto module is not in src/) -/

/-- Initial server greeting magic, the bytes of the string NBDMAGIC. -/
def NBD_MAGIC : Nat := 0x4e42444d41474943

/-- Option magic, the bytes of the string IHAVEOPT. -/
def IHAVEOPT : Nat := 0x49484156454F5054

/-- Fixed-newstyle option reply magic. -/
def OPT_REPLY_MAGIC : Nat := 0x3e889045565a9

/-- Simple reply magic. -/
def SIMPLE_REPLY_MAGIC : Nat := 0x67446698

/-- Transmission-phase request magic. -/
def REQUEST_MAGIC : Nat := 0x25609513

/-- Server handshake flag FIXED_NEWSTYLE. -/
def HF_FIXED_NEWSTYLE : Nat := 1

/-- Server handshake flag NO_ZEROES. -/
def HF_NO_ZEROES : Nat := 2

/-- Client handshake flag C_FIXED_NEWSTYLE. -/
def CF_FIXED_NEWSTYLE : Nat := 1

/-- Client handshake flag C_NO_ZEROES. -/
def CF_NO_ZEROES : Nat := 2

/-- Transmit flag HAS_FLAGS. -/
def TF_HAS_FLAGS : Nat := 1

/-- Transmit flag SEND_FLUSH. -/
def TF_SEND_FLUSH : Nat := 8

/-- `Server::TRANSMIT_FLAGS()`: the transmit flags this server advertises. -/
def transmitFlags : Nat := TF_HAS_FLAGS ||| TF_SEND_FLUSH

/-- Option type EXPORT_NAME. -/
def OPT_EXPORT_NAME : Nat := 1

/-- Option type ABORT. -/
def OPT_ABORT : Nat := 2

/-- Option type LIST. -/
def OPT_LIST : Nat := 3

/-- Option type INFO. -/
def OPT_INFO : Nat := 6

/-- Option type GO. -/
def OPT_GO : Nat := 7

/-- Option reply type ACK. -/
def RT_ACK : Nat := 1

/-- Option reply type SERVER (export-list entry). -/
def RT_SERVER : Nat := 2

/-- Option reply type INFO. -/
def RT_INFO : Nat := 3

/-- Option reply type ERR_UNSUP (error bit | 1). -/
def RT_ERR_UNSUP : Nat := 2 ^ 31 + 1

/-- NBD ErrorType code OK. -/
def EOK : Nat := 0

/-- NBD ErrorType code EPERM. -/
def EPERM : Nat := 1

/-- NBD ErrorType code EIO. -/
def EIO : Nat := 5

/-- NBD ErrorType code EINVAL. -/
def EINVAL : Nat := 22

/-- NBD ErrorType code ENOSPC. -/
def ENOSPC : Nat := 28

/-- NBD ErrorType code EOVERFLOW. -/
def EOVERFLOW : Nat := 75

/-- NBD ErrorType code ENOTSUP. -/
def ENOTSUP : Nat := 95

/-- The categories of `std::io::ErrorKind` the error mapping distinguishes. -/
inductive IoErrorKind where
  | permissionDenied
  | notFound
  | invalidInput
  | storageFull
  | other
deriving DecidableEq, Repr

/-- Modelled from the spec: `ErrorType::from_io_kind` — permission to EPERM,
not-found / invalid-argument to EINVAL, out-of-space to ENOSPC, otherwise EIO. -/
def fromIoKind : IoErrorKind → Nat
  | IoErrorKind.permissionDenied => EPERM
  | IoErrorKind.notFound => EINVAL
  | IoErrorKind.invalidInput => EINVAL
  | IoErrorKind.storageFull => ENOSPC
  | IoErrorKind.other => EIO

/-! ## Results of Rust computations

A Rust call either returns `Ok`, returns `Err`, or panics (arithmetic overflow in a
debug build, or a slice-indexing failure).  Panics are modelled explicitly because
the memory backend can reach them. -/

/-- Outcome of a Rust computation: success, error return, or panic. -/
inductive RRes (ε : Type) (α : Type) where
  | ok (a : α)
  | err (e : ε)
  | panicked
deriving DecidableEq, Repr

/-! ## MemBlocks (`impl Blocks for RefCell<Vec<u8>>`, src/server.rs lines 68-102)

`off as usize` is the identity on a 64-bit target; `off + buf.len()` is `usize`
addition, which wraps modulo 2^64 in the release profile (a debug build panics at
the addition in exactly the cases where the wrapped computation panics at the
slice index below).  The slice `data[off..end]` panics unless
`off <= end && end <= data.len()`, and `copy_from_slice` panics unless the two
slices have equal lengths. -/

/-- `MemBlocks::read_at`: fill a buffer of length `bufLen` from offset `off`.
On success returns the bytes read (the new buffer contents). -/
def memReadAt (data : List Nat) (bufLen off : Nat) : RRes IoErrorKind (List Nat) :=
  let offm := off % USIZE
  let e := (offm + bufLen) % USIZE
  if data.length ≤ e then RRes.err IoErrorKind.invalidInput
  else if offm ≤ e ∧ e ≤ data.length ∧ e - offm = bufLen then
    RRes.ok ((data.drop offm).take bufLen)
  else RRes.panicked

/-- `MemBlocks::write_at`: write `buf` at offset `off`.  On success returns the
new store contents. -/
def memWriteAt (data buf : List Nat) (off : Nat) : RRes IoErrorKind (List Nat) :=
  let offm := off % USIZE
  let e := (offm + buf.length) % USIZE
  if data.length ≤ e then RRes.err IoErrorKind.invalidInput
  else if offm ≤ e ∧ e ≤ data.length ∧ e - offm = buf.length then
    RRes.ok (data.take offm ++ buf ++ data.drop e)
  else RRes.panicked

/-! ## The Blocks trait as a record of operations -/

/-- A `Blocks` implementation over store states of type `σ`.  `readAt` receives the
buffer length and returns the bytes read; `writeAt` returns the new store. -/
structure BlocksImpl (σ : Type) where
  readAt : σ → Nat → Nat → RRes IoErrorKind (List Nat)
  writeAt : σ → List Nat → Nat → RRes IoErrorKind σ
  size : σ → RRes IoErrorKind Nat
  flush : σ → RRes IoErrorKind σ

/-- The memory backend as a `BlocksImpl`: `size` is the vector length and
`flush` is a no-op. -/
def memBlocksImpl : BlocksImpl (List Nat) :=
  ⟨fun st len off => memReadAt st len off,
   fun st buf off => memWriteAt st buf off,
   fun st => RRes.ok st.length,
   fun st => RRes.ok st⟩

/-! ## Export operations (src/server.rs lines 113-149) -/

/-- `Export::read`: reject lengths larger than the caller's buffer with EOVERFLOW,
otherwise read through the backing store, mapping I/O error kinds to NBD error
codes.  On success returns the filled prefix `buf[..len]`. -/
def exportRead (B : BlocksImpl σ) (st : σ) (off len : Nat) (buf : List Nat) :
    RRes Nat (List Nat) :=
  if buf.length < len then RRes.err EOVERFLOW
  else
    match B.readAt st len off with
    | RRes.ok d => RRes.ok d
    | RRes.err k => RRes.err (fromIoKind k)
    | RRes.panicked => RRes.panicked

/-- `Export::write`: reject `len` larger than the supplied data with EOVERFLOW,
otherwise write `data[..len]` through the backing store. -/
def exportWrite (B : BlocksImpl σ) (st : σ) (off len : Nat) (data : List Nat) :
    RRes Nat σ :=
  if data.length < len then RRes.err EOVERFLOW
  else
    match B.writeAt st (data.take len) off with
    | RRes.ok st2 => RRes.ok st2
    | RRes.err k => RRes.err (fromIoKind k)
    | RRes.panicked => RRes.panicked

/-! ## Transmission phase (src/server.rs lines 322-366) -/

/-- Transmission-phase commands.  Unknown 16-bit command codes are kept as
`other`. -/
inductive Cmd where
  | read
  | write
  | disconnect
  | flush
  | trim
  | other (code : Nat)
deriving DecidableEq, Repr

/-- A parsed transmission request.  `len` is the 32-bit length field; `dataLen`
is `data_len`, the length of the WRITE payload placed in the scratch buffer. -/
structure Request where
  typ : Cmd
  handle : Nat
  offset : Nat
  len : Nat
  dataLen : Nat
deriving DecidableEq, Repr

/-- A simple reply: error code, echoed handle, payload (empty except for
successful reads). -/
structure SimpleReply where
  err : Nat
  handle : Nat
  data : List Nat
deriving DecidableEq, Repr

/-- How a run of the transmission loop ends: clean return, fatal I/O error
propagated out of `handle_ops` (flush failure), fatal protocol error, or a Rust
panic. -/
inductive Outcome where
  | normal
  | ioFatal (k : IoErrorKind)
  | protoFatal
  | panicked
deriving DecidableEq, Repr

/-- Whether the loop body continues to the next request or stops with an
outcome. -/
inductive LoopCtl where
  | next
  | stop (o : Outcome)
deriving DecidableEq, Repr

/-- One dispatch step of `Server::handle_ops` on an already-parsed request, with
the WRITE payload (if any) already placed at the front of the scratch buffer.
Returns the replies emitted (zero or one), the new store state, the new scratch
contents and the loop control. -/
def handleOne (B : BlocksImpl σ) (r : Request) (st : σ) (scratch : List Nat) :
    List SimpleReply × σ × List Nat × LoopCtl :=
  match r.typ with
  | Cmd.read =>
    match exportRead B st r.offset r.len scratch with
    | RRes.ok d => ([⟨EOK, r.handle, d⟩], st, d ++ scratch.drop r.len, LoopCtl.next)
    | RRes.err e => ([⟨e, r.handle, []⟩], st, scratch, LoopCtl.next)
    | RRes.panicked => ([], st, scratch, LoopCtl.stop Outcome.panicked)
  | Cmd.write =>
    match exportWrite B st r.offset r.dataLen scratch with
    | RRes.ok st2 => ([⟨EOK, r.handle, []⟩], st2, scratch, LoopCtl.next)
    | RRes.err e => ([⟨e, r.handle, []⟩], st, scratch, LoopCtl.next)
    | RRes.panicked => ([], st, scratch, LoopCtl.stop Outcome.panicked)
  | Cmd.disconnect => ([], st, scratch, LoopCtl.stop Outcome.normal)
  | Cmd.flush =>
    match B.flush st with
    | RRes.ok st2 => ([⟨EOK, r.handle, []⟩], st2, scratch, LoopCtl.next)
    | RRes.err e => ([], st, scratch, LoopCtl.stop (Outcome.ioFatal e))
    | RRes.panicked => ([], st, scratch, LoopCtl.stop Outcome.panicked)
  | Cmd.trim => ([⟨EOK, r.handle, []⟩], st, scratch, LoopCtl.next)
  | Cmd.other _ => ([⟨ENOTSUP, r.handle, []⟩], st, scratch, LoopCtl.stop Outcome.normal)

/-- The scratch buffer as `Request::get` leaves it: for a WRITE request the
payload has been read into its front, otherwise it is untouched. -/
def getScratch (r : Request) (payload scratch : List Nat) : List Nat :=
  if r.typ = Cmd.write then payload ++ scratch.drop payload.length else scratch

/-- `Server::handle_ops` at request granularity: the incoming stream is a list of
parsed requests, each paired with the payload bytes that `Request::get` wrote into
the scratch buffer (empty for non-WRITE requests).  An exhausted list models the
client's stream ending cleanly at a request boundary (`Request::get` returning
`None`).  The `assert_eq!(buf.len(), 4096 * 64)` at the top of the loop is
modelled as a panic when the scratch length is wrong. -/
def handleOps (B : BlocksImpl σ) :
    List (Request × List Nat) → σ → List Nat → List SimpleReply × σ × Outcome
  | [], st, _ => ([], st, Outcome.normal)
  | (r, payload) :: rs, st, scratch =>
    if scratch.length = scratchLen then
      match handleOne B r st (getScratch r payload scratch) with
      | (reps, st2, scr2, LoopCtl.next) =>
        (reps ++ (handleOps B rs st2 scr2).1, (handleOps B rs st2 scr2).2)
      | (reps, st2, _, LoopCtl.stop o) => (reps, st2, o)
    else ([], st, Outcome.panicked)

/-! ## Byte-level request parsing (Modelled from the spec)

The proto module holding `Request::get` is not under src/; the frame layout is
modelled from the spec's data model: `magic(32), flags(16), command(16),
handle(64), offset(64), length(32) = 28 bytes`, with the WRITE payload of
`length` bytes read into the scratch buffer before dispatch. -/

/-- Value of a complete big-endian byte list. -/
def beVal (l : List Nat) : Nat :=
  l.foldl (fun acc b => acc * 256 + b) 0

/-- Decode a 16-bit command code. -/
def decodeCmd (c : Nat) : Cmd :=
  if c = 0 then Cmd.read
  else if c = 1 then Cmd.write
  else if c = 2 then Cmd.disconnect
  else if c = 3 then Cmd.flush
  else if c = 4 then Cmd.trim
  else Cmd.other c

/-- Modelled from the spec: parse one request frame from the front of the
stream.  Returns the request, the scratch buffer with the WRITE payload copied
into its front, and the remaining stream; `none` is a framing error (short
header, bad magic, truncated or oversized WRITE payload). -/
def parseReqFrame (s scratch : List Nat) : Option (Request × List Nat × List Nat) :=
  if 28 ≤ s.length then
    -- bytes 4..6 are the 16-bit command flags, which the server ignores
    if beVal (s.take 4) = REQUEST_MAGIC then
      if decodeCmd (beVal ((s.drop 6).take 2)) = Cmd.write then
        if beVal ((s.drop 24).take 4) ≤ scratch.length ∧
           28 + beVal ((s.drop 24).take 4) ≤ s.length then
          some (⟨Cmd.write, beVal ((s.drop 8).take 8), beVal ((s.drop 16).take 8),
                 beVal ((s.drop 24).take 4), beVal ((s.drop 24).take 4)⟩,
                (s.drop 28).take (beVal ((s.drop 24).take 4)) ++
                  scratch.drop (beVal ((s.drop 24).take 4)),
                s.drop (28 + beVal ((s.drop 24).take 4)))
        else none
      else some (⟨decodeCmd (beVal ((s.drop 6).take 2)), beVal ((s.drop 8).take 8),
                  beVal ((s.drop 16).take 8), beVal ((s.drop 24).take 4), 0⟩,
                 scratch, s.drop 28)
    else none
  else none

/-- Modelled from the spec: `Request::get`.  End-of-stream before the first byte
of the magic is a clean `None`; any other framing failure is an error. -/
def requestGet (s scratch : List Nat) :
    Except Unit (Option (Request × List Nat × List Nat)) :=
  match s with
  | [] => Except.ok none
  | _ :: _ =>
    match parseReqFrame s scratch with
    | some r => Except.ok (some r)
    | none => Except.error ()

/-- Modelled from the spec: `SimpleReply::put` — magic, errno, handle, then the
payload bytes. -/
def simpleReplyBytes (rep : SimpleReply) : List Nat :=
  beBytes 4 SIMPLE_REPLY_MAGIC ++ beBytes 4 rep.err ++ beBytes 8 rep.handle ++ rep.data

/-- `Server::handle_ops` at byte granularity: repeatedly parse one request frame
from the input stream and dispatch it, emitting the serialized replies.  The
first component of the result is the bytes written to the client. -/
def handleOpsBytes (B : BlocksImpl σ) (s : List Nat) (st : σ) (scratch : List Nat) :
    List Nat × σ × Outcome :=
  if scratch.length = scratchLen then
    match hq : requestGet s scratch with
    | Except.error _ => ([], st, Outcome.protoFatal)
    | Except.ok none => ([], st, Outcome.normal)
    | Except.ok (some (r, scr1, rest)) =>
      match handleOne B r st scr1 with
      | (reps, st2, scr2, LoopCtl.next) =>
        let res := handleOpsBytes B rest st2 scr2
        ((reps.map simpleReplyBytes).flatten ++ res.1, res.2)
      | (reps, st2, _, LoopCtl.stop o) => ((reps.map simpleReplyBytes).flatten, st2, o)
  else ([], st, Outcome.panicked)
termination_by s.length
decreasing_by
  have key : ∀ (s1 scr : List Nat) r c1 rest1,
      requestGet s1 scr = Except.ok (some (r, c1, rest1)) → rest1.length < s1.length := by
    intro s1 scr r c1 rest1 hk
    unfold requestGet at hk
    cases s1 with
    | nil => simp at hk
    | cons b t =>
      cases hp : parseReqFrame (b :: t) scr with
      | none => rw [hp] at hk; simp at hk
      | some trip =>
        rw [hp] at hk
        simp only [Except.ok.injEq, Option.some.injEq] at hk
        subst hk
        unfold parseReqFrame at hp
        by_cases h28 : 28 ≤ (b :: t).length
        · rw [if_pos h28] at hp
          split at hp
          · split at hp
            · split at hp
              · simp only [Option.some.injEq, Prod.mk.injEq] at hp
                obtain ⟨-, -, hrest⟩ := hp
                subst hrest
                simp only [List.length_drop]
                omega
              · simp at hp
            · simp only [Option.some.injEq, Prod.mk.injEq] at hp
              obtain ⟨-, -, hrest⟩ := hp
              subst hrest
              simp only [List.length_drop]
              omega
          · simp at hp
        · rw [if_neg h28] at hp; simp at hp
  exact key _ _ _ _ _ hq

/-! ## Initial handshake (src/server.rs lines 171-187) -/

/-- How a handshake step fails: an I/O failure (end of stream) or a protocol
error. -/
inductive HsErr where
  | ioEof
  | proto
deriving DecidableEq, Repr

/-- `Server::initial_handshake`: write the greeting, read the 32-bit client
flags, validate them (`ClientHandshakeFlags::from_bits` rejects bits outside the
defined set; `C_FIXED_NEWSTYLE` is mandatory) and compute the negotiated flag
set.  Returns the bytes written and either the negotiated flags with the
remaining input, or the error. -/
def initialHandshake (input : List Nat) : List Nat × Except HsErr (Nat × List Nat) :=
  (beBytes 8 NBD_MAGIC ++ beBytes 8 IHAVEOPT ++
     beBytes 2 (HF_FIXED_NEWSTYLE ||| HF_NO_ZEROES),
   match readBE 4 input with
   | none => Except.error HsErr.ioEof
   | some (cf, rest) =>
     -- ClientHandshakeFlags::from_bits fails on any bit outside the defined set
     if cf &&& (CF_FIXED_NEWSTYLE ||| CF_NO_ZEROES) = cf then
       if cf &&& CF_FIXED_NEWSTYLE = CF_FIXED_NEWSTYLE then
         Except.ok
           ((if cf &&& CF_NO_ZEROES = CF_NO_ZEROES then HF_FIXED_NEWSTYLE ||| HF_NO_ZEROES
             else HF_FIXED_NEWSTYLE), rest)
       else Except.error HsErr.proto
     else Except.error HsErr.proto)

/-! ## Option haggling (src/server.rs lines 189-320) -/

/-- Modelled from the spec: a client option frame after decoding — type and
data bytes. -/
structure Opt where
  typ : Nat
  data : List Nat
deriving DecidableEq, Repr

/-- Modelled from the spec: `OptReply::put` — reply magic, the option type being
replied to, the reply type, payload length, payload. -/
def optReplyBytes (optTyp replyTyp : Nat) (data : List Nat) : List Nat :=
  beBytes 8 OPT_REPLY_MAGIC ++ beBytes 4 optTyp ++ beBytes 4 replyTyp ++
  beBytes 4 data.length ++ data

/-- `Server::send_export_info`: size, transmit flags, and the 124 reserved zero
bytes unless NO_ZEROES was negotiated.  (The `size()` I/O error path is not
modelled; the memory backend's size never fails.) -/
def sendExportInfo (size flags : Nat) : List Nat :=
  beBytes 8 size ++ beBytes 2 transmitFlags ++
  (if flags &&& HF_NO_ZEROES = HF_NO_ZEROES then [] else List.replicate 124 0)

/-- Modelled from the spec: `ExportList::put` — one SERVER-typed reply per export
name (length-prefixed name bytes), then an ACK. -/
def exportListBytes (names : List (List Nat)) : List Nat :=
  (names.map (fun n => optReplyBytes OPT_LIST RT_SERVER (beBytes 4 n.length ++ n))).flatten ++
  optReplyBytes OPT_LIST RT_ACK []

/-- The info types of the NBD INFO/GO sub-protocol. -/
inductive InfoType where
  | export
  | name
  | description
  | blockSize
deriving DecidableEq, Repr

/-- 16-bit wire code of an info type. -/
def infoTypeCode : InfoType → Nat
  | InfoType.export => 0
  | InfoType.name => 1
  | InfoType.description => 2
  | InfoType.blockSize => 3

/-- Modelled from the spec: decode a 16-bit info type code. -/
def decodeInfoType (c : Nat) : Option InfoType :=
  if c = 0 then some InfoType.export
  else if c = 1 then some InfoType.name
  else if c = 2 then some InfoType.description
  else if c = 3 then some InfoType.blockSize
  else none

/-- Payload of the INFO reply for `NBD_INFO_EXPORT`: code, size, transmit
flags. -/
def exportInfoPayload (size : Nat) : List Nat :=
  beBytes 2 (infoTypeCode InfoType.export) ++ beBytes 8 size ++ beBytes 2 transmitFlags

/-- Payload of the INFO reply for `NBD_INFO_BLOCK_SIZE`: code, minimum 1,
preferred 4096, maximum 4096 * 32. -/
def blockSizePayload : List Nat :=
  beBytes 2 (infoTypeCode InfoType.blockSize) ++ beBytes 4 1 ++ beBytes 4 4096 ++
  beBytes 4 (4096 * 32)

/-- The iteration of `Server::info_responses` over the requested info types:
EXPORT and BLOCK_SIZE emit INFO-typed replies and continue; NAME and DESCRIPTION
emit ERR_UNSUP and abort (the source does an early `return Ok`), so nothing
after them — including the final ACK — is sent. -/
def infoLoop (ot size : Nat) : List InfoType → List Nat
  | [] => optReplyBytes ot RT_ACK []
  | InfoType.export :: rest =>
    optReplyBytes ot RT_INFO (exportInfoPayload size) ++ infoLoop ot size rest
  | InfoType.blockSize :: rest =>
    optReplyBytes ot RT_INFO blockSizePayload ++ infoLoop ot size rest
  | InfoType.name :: _ => optReplyBytes ot RT_ERR_UNSUP []
  | InfoType.description :: _ => optReplyBytes ot RT_ERR_UNSUP []

/-- `Server::info_responses`: iterate over the requested types chained with one
implicit EXPORT, then ACK (unless a NAME/DESCRIPTION aborted the loop). -/
def infoResponses (ot size : Nat) (typs : List InfoType) : List Nat :=
  infoLoop ot size (typs ++ [InfoType.export])

/-- Whether a byte is a UTF-8 continuation byte (0x80..0xBF). -/
def contByte (b : Nat) : Bool :=
  decide (0x80 ≤ b) && decide (b ≤ 0xBF)

/-- Modelled from the spec: strict UTF-8 validity of a byte sequence, as checked
by `String::from_utf8` on the export name. -/
def utf8Valid : List Nat → Bool
  | [] => true
  | b :: rest =>
    if b ≤ 0x7F then utf8Valid rest
    else
      match rest with
      | [] => false
      | c :: rest2 =>
        if 0xC2 ≤ b ∧ b ≤ 0xDF then contByte c && utf8Valid rest2
        else
          match rest2 with
          | [] => false
          | d :: rest3 =>
            if b = 0xE0 then
              (decide (0xA0 ≤ c) && decide (c ≤ 0xBF)) && contByte d && utf8Valid rest3
            else if (0xE1 ≤ b ∧ b ≤ 0xEC) ∨ b = 0xEE ∨ b = 0xEF then
              contByte c && contByte d && utf8Valid rest3
            else if b = 0xED then
              (decide (0x80 ≤ c) && decide (c ≤ 0x9F)) && contByte d && utf8Valid rest3
            else
              match rest3 with
              | [] => false
              | e :: rest4 =>
                if b = 0xF0 then
                  (decide (0x90 ≤ c) && decide (c ≤ 0xBF)) && contByte d && contByte e &&
                  utf8Valid rest4
                else if 0xF1 ≤ b ∧ b ≤ 0xF3 then
                  contByte c && contByte d && contByte e && utf8Valid rest4
                else if b = 0xF4 then
                  (decide (0x80 ≤ c) && decide (c ≤ 0x8F)) && contByte d && contByte e &&
                  utf8Valid rest4
                else false

/-- Modelled from the spec: read `n` 16-bit info type codes. -/
def readTyps : Nat → List Nat → Option (List InfoType × List Nat)
  | 0, s => some ([], s)
  | n+1, s =>
    match readBE 2 s with
    | none => none
    | some (c, s1) =>
      match decodeInfoType c with
      | none => none
      | some t =>
        match readTyps n s1 with
        | none => none
        | some (ts, s2) => some (t :: ts, s2)

/-- Modelled from the spec: `InfoRequest::get` — length-prefixed export name,
16-bit count, then that many 16-bit info type codes. -/
def parseInfoRequest (data : List Nat) : Option (List Nat × List InfoType) :=
  match readBE 4 data with
  | none => none
  | some (nameLen, s1) =>
    match readBytes nameLen s1 with
    | none => none
    | some (name, s2) =>
      match readBE 2 s2 with
      | none => none
      | some (count, s3) =>
        match readTyps count s3 with
        | none => none
        | some (typs, _) => some (name, typs)

/-- What one iteration of the haggle loop decides. -/
inductive HaggleRes where
  | transmit
  | disconnect
  | protoErr
  | again
deriving DecidableEq, Repr

/-- One iteration of `Server::handshake_haggle` on a decoded option.  `names` is
the export-name list (a single export in this server), `size` the export size and
`flags` the negotiated handshake flags.  Returns the bytes written and the loop
decision. -/
def haggleStep (names : List (List Nat)) (size flags : Nat) (opt : Opt) :
    List Nat × HaggleRes :=
  if opt.typ = OPT_EXPORT_NAME then
    if utf8Valid opt.data then (sendExportInfo size flags, HaggleRes.transmit)
    else ([], HaggleRes.protoErr)
  else if opt.typ = OPT_LIST then (exportListBytes names, HaggleRes.again)
  else if opt.typ = OPT_INFO then
    match parseInfoRequest opt.data with
    | some (_, typs) => (infoResponses OPT_INFO size typs, HaggleRes.again)
    | none => ([], HaggleRes.protoErr)
  else if opt.typ = OPT_GO then
    match parseInfoRequest opt.data with
    | some (_, typs) => (infoResponses OPT_GO size typs, HaggleRes.transmit)
    | none => ([], HaggleRes.protoErr)
  else if opt.typ = OPT_ABORT then ([], HaggleRes.disconnect)
  else (optReplyBytes opt.typ RT_ERR_UNSUP [], HaggleRes.again)

/-! ## Concrete helpers for witnesses -/

/-- A backing store whose read, write and flush all fail with an uncategorized
I/O error; used to exercise the server's error paths. -/
def failBlocks : BlocksImpl Unit :=
  ⟨fun _ _ _ => RRes.err IoErrorKind.other,
   fun _ _ _ => RRes.err IoErrorKind.other,
   fun _ => RRes.ok 0,
   fun _ => RRes.err IoErrorKind.other⟩

/-- A fresh all-zero scratch buffer of the size `handle_ops` allocates. -/
def scratch0 : List Nat := List.replicate scratchLen 0

/-- The per-info-type reply frame the specification describes for INFO/GO: one
INFO-typed reply for EXPORT and for BLOCK_SIZE.  NAME and DESCRIPTION have no
INFO-typed payload; they are mapped to the empty byte string so the comparison
with `infoResponses` can be stated (the course of the comparison shows the claim
only holds when they are absent). -/
def specInfoFrame (ot size : Nat) : InfoType → List Nat
  | InfoType.export => optReplyBytes ot RT_INFO (exportInfoPayload size)
  | InfoType.blockSize => optReplyBytes ot RT_INFO blockSizePayload
  | _ => []

/-! # Theorems -/

/-- Every `beBytes` frame has exactly the requested width. -/
theorem beBytes_length (k : Nat) : ∀ n, (beBytes k n).length = k := by
  induction k with
  | zero => intro n; rfl
  | succ k ih => intro n; simp [beBytes, ih]

/-- Decoding a big-endian frame from the front of a stream recovers the encoded
value modulo the width, leaving the rest of the stream. -/
theorem readBEAux_beBytes (k : Nat) :
    ∀ (j acc n : Nat) (rest : List Nat),
      readBEAux (k + j) acc (beBytes k n ++ rest)
        = readBEAux j (acc * 256 ^ k + n % 256 ^ k) rest := by
  induction k with
  | zero =>
    intro j acc n rest
    simp [beBytes, readBEAux, Nat.mod_one]
  | succ k ih =>
    intro j acc n rest
    have hsplit : beBytes (k + 1) n ++ rest = beBytes k (n / 256) ++ (n % 256 :: rest) := by
      simp [beBytes]
    have hj : k + 1 + j = k + (j + 1) := by omega
    rw [hsplit, hj, ih (j + 1) acc (n / 256) (n % 256 :: rest)]
    have harith : (acc * 256 ^ k + n / 256 % 256 ^ k) * 256 + n % 256
        = acc * 256 ^ (k + 1) + n % 256 ^ (k + 1) := by
      have hpow : (256 : Nat) ^ (k + 1) = 256 * 256 ^ k := by ring
      have hmod : n % 256 ^ (k + 1) = n % 256 + 256 * (n / 256 % 256 ^ k) := by
        rw [hpow, Nat.mod_mul]
      rw [hmod]; ring
    simp [readBEAux, harith]

/-- `read_uNN` after `write_uNN` round-trips (modulo the width). -/
theorem readBE_beBytes (k n : Nat) (rest : List Nat) :
    readBE k (beBytes k n ++ rest) = some (n % 256 ^ k, rest) := by
  have h := readBEAux_beBytes k 0 0 n rest
  simpa [readBE, readBEAux] using h

/-- `read_uNN` after `write_uNN` round-trips exactly for in-range values. -/
theorem readBE_beBytes_of_lt (k n : Nat) (rest : List Nat) (h : n < 256 ^ k) :
    readBE k (beBytes k n ++ rest) = some (n, rest) := by
  rw [readBE_beBytes, Nat.mod_eq_of_lt h]

/-- Claim C1, counterexample: with a 2-byte memory export, a 1-byte write at
offset 1 satisfies `off + data.len() ≤ size` (it touches exactly the final
byte), yet `MemBlocks::write_at` rejects it with InvalidInput because its bounds
check uses `off + buf.len() >= len`. -/
theorem c1_counterexample :
    1 + ([7] : List Nat).length ≤ ([0, 0] : List Nat).length ∧
    memWriteAt [0, 0] [7] 1 = RRes.err IoErrorKind.invalidInput := by
  constructor
  · decide
  · decide

/-- Claim C1 (amended): write/read round-trip on the memory export for every
`off` and `data` with `off + data.len() < size` (strictly below the size, as the
memory backend's `>=` check requires): the write succeeds, producing the store
with `data` spliced in at `off`, and an immediate read of `data.len()` bytes at
`off` succeeds and returns exactly `data`. -/
theorem c1_roundtrip (store buf : List Nat) (off : Nat)
    (hstore : store.length ≤ USIZE) (hlt : off + buf.length < store.length) :
    memWriteAt store buf off
      = RRes.ok (store.take off ++ buf ++ store.drop (off + buf.length)) ∧
    memReadAt (store.take off ++ buf ++ store.drop (off + buf.length)) buf.length off
      = RRes.ok buf := by
  have hoff : off % USIZE = off := Nat.mod_eq_of_lt (by omega)
  have he : (off + buf.length) % USIZE = off + buf.length := Nat.mod_eq_of_lt (by omega)
  have hl1 : (store.take off).length = off := by
    rw [List.length_take]; omega
  constructor
  · unfold memWriteAt
    simp only [hoff, he]
    rw [if_neg (by omega), if_pos (by omega)]
  · have hlen2 : (store.take off ++ buf ++ store.drop (off + buf.length)).length
        = store.length := by
      simp only [List.length_append, List.length_take, List.length_drop]
      omega
    unfold memReadAt
    simp only [hoff, he, hlen2]
    rw [if_neg (by omega), if_pos (by omega)]
    rw [List.append_assoc, List.drop_left' hl1, List.take_left' rfl]

/-- Claim C1, witness: the amended round-trip at a concrete store. -/
theorem c1_roundtrip_witness :
    memWriteAt [0, 0, 0] [7] 1
      = RRes.ok (List.take 1 [0, 0, 0] ++ [7] ++
                 List.drop (1 + List.length [7]) [0, 0, 0]) ∧
    memReadAt (List.take 1 [0, 0, 0] ++ [7] ++ List.drop (1 + List.length [7]) [0, 0, 0])
      (List.length [7]) 1 = RRes.ok [7] :=
  c1_roundtrip [0, 0, 0] [7] 1 (by decide) (by decide)

/-- Claim C9, counterexample: for `off = 2^64 - 1` and a 2-byte buffer against a
10-byte store, the wrapped `usize` addition makes the bounds check
`off + buf.len() >= len` pass (the computed end is 1, below the length 10), yet
the access is out of range: `read_at` panics instead of returning InvalidInput. -/
theorem c9_counterexample :
    memReadAt (List.replicate 10 0) 2 (2 ^ 64 - 1) = RRes.panicked ∧
    ((2 ^ 64 - 1) % USIZE + 2) % USIZE < (List.replicate 10 (0 : Nat)).length := by
  constructor
  · decide
  · decide

/-- Claim C9 (amended): whenever `off + buf.len()` does not overflow `usize`
(`off < 2^64` and `off + buf.len() < 2^64`), the memory backend's bounds check
decides correctly: out-of-bounds requests return InvalidInput leaving the store
untouched, and in-bounds requests access exactly the indices
`[off, off + buf.len())`, all inside the vector.  When the addition overflows,
the check can wrongly pass but the subsequent slice operation panics (no silent
out-of-range access), as the counterexample shows. -/
theorem c9_bounds_no_overflow (data buf : List Nat) (off : Nat)
    (hoff : off < USIZE) (hov : off + buf.length < USIZE) :
    (data.length ≤ off + buf.length →
        memWriteAt data buf off = RRes.err IoErrorKind.invalidInput ∧
        memReadAt data buf.length off = RRes.err IoErrorKind.invalidInput) ∧
    (off + buf.length < data.length →
        memWriteAt data buf off
          = RRes.ok (data.take off ++ buf ++ data.drop (off + buf.length)) ∧
        memReadAt data buf.length off = RRes.ok ((data.drop off).take buf.length)) := by
  have h1 : off % USIZE = off := Nat.mod_eq_of_lt hoff
  have h2 : (off + buf.length) % USIZE = off + buf.length := Nat.mod_eq_of_lt hov
  constructor
  · intro hge
    constructor
    · unfold memWriteAt; simp only [h1, h2]; rw [if_pos (by omega)]
    · unfold memReadAt; simp only [h1, h2]; rw [if_pos (by omega)]
  · intro hlt
    constructor
    · unfold memWriteAt; simp only [h1, h2]; rw [if_neg (by omega), if_pos (by omega)]
    · unfold memReadAt; simp only [h1, h2]; rw [if_neg (by omega), if_pos (by omega)]

/-- Claim C9, witness: the amended statement at a concrete in-bounds input. -/
theorem c9_bounds_witness :
    memWriteAt [0, 0] [5] 0
      = RRes.ok (List.take 0 [0, 0] ++ [5] ++ List.drop (0 + List.length [5]) [0, 0]) ∧
    memReadAt [0, 0] (List.length [5]) 0
      = RRes.ok ((List.drop 0 [0, 0]).take (List.length [5])) :=
  (c9_bounds_no_overflow [0, 0] [5] 0 (by decide) (by decide)).2 (by decide)

/-- The scratch buffer is untouched by request parsing for non-WRITE requests. -/
theorem getScratch_not_write {r : Request} (payload scratch : List Nat)
    (h : ¬ r.typ = Cmd.write) : getScratch r payload scratch = scratch := by
  unfold getScratch; rw [if_neg h]

/-- For WRITE requests the payload is copied into the front of the scratch. -/
theorem getScratch_write {r : Request} (payload scratch : List Nat)
    (h : r.typ = Cmd.write) :
    getScratch r payload scratch = payload ++ scratch.drop payload.length := by
  unfold getScratch; rw [if_pos h]

/-- Unfolding `handleOps` one step when the dispatched request stops the loop. -/
theorem handleOps_cons_stop {σ : Type} (B : BlocksImpl σ) (r : Request)
    (payload : List Nat) (rs : List (Request × List Nat)) (st : σ)
    (scratch : List Nat) (reps : List SimpleReply) (st2 : σ) (scr2 : List Nat)
    (o : Outcome) (hscr : scratch.length = scratchLen)
    (h : handleOne B r st (getScratch r payload scratch) = (reps, st2, scr2, LoopCtl.stop o)) :
    handleOps B ((r, payload) :: rs) st scratch = (reps, st2, o) := by
  unfold handleOps
  rw [if_pos hscr, h]


/-- Unfolding `handleOps` one step when the dispatched request continues the
loop. -/
theorem handleOps_cons_next {σ : Type} (B : BlocksImpl σ) (r : Request)
    (payload : List Nat) (rs : List (Request × List Nat)) (st : σ)
    (scratch : List Nat) (reps : List SimpleReply) (st2 : σ) (scr2 : List Nat)
    (hscr : scratch.length = scratchLen)
    (h : handleOne B r st (getScratch r payload scratch) = (reps, st2, scr2, LoopCtl.next)) :
    handleOps B ((r, payload) :: rs) st scratch
      = (reps ++ (handleOps B rs st2 scr2).1, (handleOps B rs st2 scr2).2) := by
  conv_lhs => rw [handleOps]
  rw [if_pos hscr, h]

/-- Claim C2: evaluation of the transmission loop at the failing input.  A READ
request at offset `2^64 - 1` with length 2 against a 10-byte memory export has
`offset + length > size`, so the claim requires an error reply, an unmodified
export and a working connection; instead the wrapped bounds check passes, the
slice access panics, no reply at all is emitted, and the following valid READ is
never served. -/
theorem c2_overflow_panic_eval :
    handleOps memBlocksImpl
        [(⟨Cmd.read, 5, 2 ^ 64 - 1, 2, 0⟩, []), (⟨Cmd.read, 6, 0, 1, 0⟩, [])]
        (List.replicate 10 0) scratch0
      = ([], List.replicate 10 0, Outcome.panicked) := by
  have hscr : scratch0.length = scratchLen := by simp [scratch0]
  have hm : memReadAt (List.replicate 10 0) 2 (2 ^ 64 - 1) = RRes.panicked := by decide
  have hnlt : ¬ scratch0.length < 2 := by rw [hscr]; decide
  have hread : exportRead memBlocksImpl (List.replicate 10 0) (2 ^ 64 - 1) 2 scratch0
      = RRes.panicked := by
    unfold exportRead
    rw [if_neg hnlt]
    simp only [memBlocksImpl]
    rw [hm]
  have honeg : ∀ scr : List Nat,
      exportRead memBlocksImpl (List.replicate 10 0) (2 ^ 64 - 1) 2 scr = RRes.panicked →
      handleOne memBlocksImpl ⟨Cmd.read, 5, 2 ^ 64 - 1, 2, 0⟩ (List.replicate 10 0) scr
        = ([], List.replicate 10 0, scr, LoopCtl.stop Outcome.panicked) := by
    intro scr h
    unfold handleOne
    rw [h]
  refine handleOps_cons_stop _ _ _ _ _ _ _ _ scratch0 _ hscr ?_
  rw [getScratch_not_write _ _ (by decide)]
  exact honeg scratch0 hread

/-- Claim C3: the initial handshake writes the 64-bit greeting magic, the 64-bit
IHAVEOPT magic and the 16-bit flags FIXED_NEWSTYLE|NO_ZEROES = 0x0003; on a
32-bit client-flag word it fails with a protocol error exactly when the flags
contain bits outside the defined set (`cf &&& 3 = cf` fails) or lack
C_FIXED_NEWSTYLE (`cf &&& 1 = 1` fails); and on success the negotiated flag set
contains NO_ZEROES exactly when the client sent C_NO_ZEROES, with the rest of the
input untouched. -/
theorem c3_initial_handshake (cf : Nat) (rest : List Nat) (hcf : cf < 2 ^ 32) :
    (initialHandshake (beBytes 4 cf ++ rest)).1
      = beBytes 8 0x4e42444d41474943 ++ beBytes 8 0x49484156454F5054 ++ beBytes 2 3 ∧
    ((initialHandshake (beBytes 4 cf ++ rest)).2 = Except.error HsErr.proto
      ↔ ¬(cf &&& 3 = cf ∧ cf &&& 1 = 1)) ∧
    (∀ f rest2, (initialHandshake (beBytes 4 cf ++ rest)).2 = Except.ok (f, rest2) →
      ((f &&& 2 = 2 ↔ cf &&& 2 = 2) ∧ rest2 = rest)) := by
  have h32 : (256 : Nat) ^ 4 = 2 ^ 32 := by norm_num
  have hr : readBE 4 (beBytes 4 cf ++ rest) = some (cf, rest) :=
    readBE_beBytes_of_lt 4 cf rest (h32 ▸ hcf)
  have h12 : (1 : Nat) ||| 2 = 3 := by decide
  refine ⟨?_, ?_, ?_⟩
  · rfl
  · unfold initialHandshake
    rw [hr]
    simp only [CF_FIXED_NEWSTYLE, CF_NO_ZEROES, HF_FIXED_NEWSTYLE, HF_NO_ZEROES, h12]
    by_cases hA : cf &&& 3 = cf
    · rw [if_pos hA]
      by_cases hB : cf &&& 1 = 1
      · rw [if_pos hB]
        simp [hA, hB]
      · rw [if_neg hB]
        exact ⟨fun _ hand => absurd hand.2 hB, fun _ => rfl⟩
    · rw [if_neg hA]
      simp [hA]
  · intro f rest2 hok
    unfold initialHandshake at hok
    rw [hr] at hok
    simp only [CF_FIXED_NEWSTYLE, CF_NO_ZEROES, HF_FIXED_NEWSTYLE, HF_NO_ZEROES,
      h12] at hok
    by_cases hA : cf &&& 3 = cf
    · rw [if_pos hA] at hok
      by_cases hB : cf &&& 1 = 1
      · rw [if_pos hB] at hok
        simp only [Except.ok.injEq, Prod.mk.injEq] at hok
        obtain ⟨hf, hrest⟩ := hok
        subst hrest
        refine ⟨?_, rfl⟩
        by_cases hC : cf &&& 2 = 2
        · rw [if_pos hC] at hf
          subst hf
          exact ⟨fun _ => hC, fun _ => by decide⟩
        · rw [if_neg hC] at hf
          subst hf
          constructor
          · intro h1
            exact absurd h1 (by decide)
          · intro h2
            exact absurd h2 hC
      · rw [if_neg hB] at hok
        exact absurd hok (by simp)
    · rw [if_neg hA] at hok
      exact absurd hok (by simp)

/-- Claim C3, witness: the handshake at the concrete client flags 0x3
(C_FIXED_NEWSTYLE | C_NO_ZEROES). -/
theorem c3_witness :
    (initialHandshake (beBytes 4 3 ++ [5])).1
      = beBytes 8 0x4e42444d41474943 ++ beBytes 8 0x49484156454F5054 ++ beBytes 2 3 ∧
    ((initialHandshake (beBytes 4 3 ++ [5])).2 = Except.error HsErr.proto
      ↔ ¬(3 &&& 3 = 3 ∧ 3 &&& 1 = 1)) ∧
    (∀ f rest2, (initialHandshake (beBytes 4 3 ++ [5])).2 = Except.ok (f, rest2) →
      ((f &&& 2 = 2 ↔ 3 &&& 2 = 2) ∧ rest2 = [5])) :=
  c3_initial_handshake 3 [5] (by decide)

/-- Claim C4: on an EXPORT_NAME option with a valid UTF-8 name, the haggle step
sends no option replies — its entire output is the export size as a u64 followed
by the 16-bit transmit flags 0x0009 (exactly HAS_FLAGS|SEND_FLUSH), followed by
124 zero bytes precisely when NO_ZEROES was not negotiated — and transitions to
the transmission phase. -/
theorem c4_export_name_legacy (names : List (List Nat)) (size flags : Nat)
    (name : List Nat) (hname : utf8Valid name = true) :
    haggleStep names size flags ⟨OPT_EXPORT_NAME, name⟩
      = (beBytes 8 size ++ beBytes 2 9 ++
         (if flags &&& HF_NO_ZEROES = HF_NO_ZEROES then [] else List.replicate 124 0),
         HaggleRes.transmit) ∧
    transmitFlags = 9 := by
  have ht : transmitFlags = 9 := by decide
  refine ⟨?_, ht⟩
  unfold haggleStep
  rw [if_pos rfl]
  show (if utf8Valid name = true then _ else _) = _
  rw [if_pos hname]
  unfold sendExportInfo
  rw [ht]

/-- Claim C4, witness: the EXPORT_NAME path at the export name "default" with
negotiated flags 0x3. -/
theorem c4_witness :
    haggleStep [[100]] 10485760 3 ⟨OPT_EXPORT_NAME, [100, 101, 102, 97, 117, 108, 116]⟩
      = (beBytes 8 10485760 ++ beBytes 2 9 ++
         (if 3 &&& HF_NO_ZEROES = HF_NO_ZEROES then [] else List.replicate 124 0),
         HaggleRes.transmit) ∧
    transmitFlags = 9 :=
  c4_export_name_legacy [[100]] 10485760 3 [100, 101, 102, 97, 117, 108, 116] (by decide)

/-- Claim C5, counterexample: for the requested info-type list [NAME] the server
sends a single ERR_UNSUP reply and aborts — no INFO-typed reply, no implicit
EXPORT reply and no terminating ACK (the whole output is 20 bytes, shorter than
the EXPORT reply plus ACK the claim requires, and differs from an ACK frame). -/
theorem c5_counterexample :
    infoResponses 6 1024 [InfoType.name] = optReplyBytes 6 RT_ERR_UNSUP [] ∧
    optReplyBytes 6 RT_ERR_UNSUP [] ≠ optReplyBytes 6 RT_ACK [] ∧
    (infoResponses 6 1024 [InfoType.name]).length
      < (optReplyBytes 6 RT_INFO (exportInfoPayload 1024)).length
        + (optReplyBytes 6 RT_ACK []).length := by
  refine ⟨?_, ?_, ?_⟩
  · decide
  · decide
  · decide

/-- Claim C5 (amended): for every INFO or GO option whose requested info-type
list contains only EXPORT and BLOCK_SIZE, the server sends one INFO-typed reply
per element in order, then the implicit EXPORT reply (duplicated if EXPORT was
requested), then an ACK; and the BLOCK_SIZE payload carries minimum 1, preferred
4096 and maximum 131072.  (For lists containing NAME or DESCRIPTION the server
instead sends ERR_UNSUP at the first such element and aborts without an ACK, as
the counterexample shows.) -/
theorem c5_info_go_responses (ot size : Nat) (typs : List InfoType)
    (h : ∀ t ∈ typs, t = InfoType.export ∨ t = InfoType.blockSize) :
    infoResponses ot size typs
      = (typs.map (specInfoFrame ot size)).flatten ++
        specInfoFrame ot size InfoType.export ++ optReplyBytes ot RT_ACK [] ∧
    blockSizePayload
      = beBytes 2 3 ++ beBytes 4 1 ++ beBytes 4 4096 ++ beBytes 4 131072 := by
  constructor
  · unfold infoResponses
    induction typs with
    | nil => simp [infoLoop, specInfoFrame]
    | cons t ts ih =>
      have hts : ∀ x ∈ ts, x = InfoType.export ∨ x = InfoType.blockSize := by
        intro x hx
        exact h x (by simp [hx])
      have ht := h t (by simp)
      rcases ht with rfl | rfl
      · simp only [List.cons_append, List.append_eq, infoLoop, ih hts, specInfoFrame,
          List.map_cons, List.flatten_cons, List.append_assoc]
      · simp only [List.cons_append, List.append_eq, infoLoop, ih hts, specInfoFrame,
          List.map_cons, List.flatten_cons, List.append_assoc]
  · decide

/-- Claim C5, witness: the GO option requesting [BLOCK_SIZE] against a 10 MiB
export. -/
theorem c5_witness :
    infoResponses 7 10485760 [InfoType.blockSize]
      = ([InfoType.blockSize].map (specInfoFrame 7 10485760)).flatten ++
        specInfoFrame 7 10485760 InfoType.export ++ optReplyBytes 7 RT_ACK [] ∧
    blockSizePayload
      = beBytes 2 3 ++ beBytes 4 1 ++ beBytes 4 4096 ++ beBytes 4 131072 :=
  c5_info_go_responses 7 10485760 [InfoType.blockSize] (by decide)

/-- Shape of one dispatch step: when the loop continues, exactly one reply was
emitted and it echoes the request's handle; when it stops, either no reply or a
single reply echoing the handle was emitted. -/
theorem handleOne_shape {σ : Type} (B : BlocksImpl σ) (r : Request) (st : σ)
    (scr : List Nat) :
    ((handleOne B r st scr).2.2.2 = LoopCtl.next →
        ∃ e d, (handleOne B r st scr).1 = [⟨e, r.handle, d⟩]) ∧
    ((handleOne B r st scr).1 = [] ∨
        ∃ e d, (handleOne B r st scr).1 = [⟨e, r.handle, d⟩]) := by
  obtain ⟨typ, hdl, off, len, dl⟩ := r
  cases typ <;> unfold handleOne <;> dsimp only
  case read =>
    cases exportRead B st off len scr <;> dsimp only
    · exact ⟨fun _ => ⟨EOK, _, rfl⟩, Or.inr ⟨EOK, _, rfl⟩⟩
    · exact ⟨fun _ => ⟨_, [], rfl⟩, Or.inr ⟨_, [], rfl⟩⟩
    · exact ⟨fun hcon => absurd hcon (by simp), Or.inl rfl⟩
  case write =>
    cases exportWrite B st off dl scr <;> dsimp only
    · exact ⟨fun _ => ⟨EOK, [], rfl⟩, Or.inr ⟨EOK, [], rfl⟩⟩
    · exact ⟨fun _ => ⟨_, [], rfl⟩, Or.inr ⟨_, [], rfl⟩⟩
    · exact ⟨fun hcon => absurd hcon (by simp), Or.inl rfl⟩
  case disconnect =>
    exact ⟨fun hcon => absurd hcon (by simp), Or.inl rfl⟩
  case flush =>
    cases B.flush st <;> dsimp only
    · exact ⟨fun _ => ⟨EOK, [], rfl⟩, Or.inr ⟨EOK, [], rfl⟩⟩
    · exact ⟨fun hcon => absurd hcon (by simp), Or.inl rfl⟩
    · exact ⟨fun hcon => absurd hcon (by simp), Or.inl rfl⟩
  case trim =>
    exact ⟨fun _ => ⟨EOK, [], rfl⟩, Or.inr ⟨EOK, [], rfl⟩⟩
  case other =>
    exact ⟨fun hcon => absurd hcon (by simp), Or.inr ⟨ENOTSUP, [], rfl⟩⟩

/-- Claim C6: handle echo and FIFO ordering.  The sequence of handles carried by
the replies of a transmission session is exactly the sequence of handles of the
requests, truncated at the point the session ends: every reply echoes its
request's handle unchanged and replies are emitted in arrival order, with no
interleaving, because the loop processes one request to completion before the
next. -/
theorem c6_handle_echo_fifo {σ : Type} (B : BlocksImpl σ)
    (reqs : List (Request × List Nat)) (st : σ) (scratch : List Nat) :
    (handleOps B reqs st scratch).1.map SimpleReply.handle
      = (reqs.map (fun p => p.1.handle)).take (handleOps B reqs st scratch).1.length := by
  induction reqs generalizing st scratch with
  | nil =>
    simp [handleOps]
  | cons p rs ih =>
    obtain ⟨r, payload⟩ := p
    by_cases hscr : scratch.length = scratchLen
    · rcases hone : handleOne B r st (getScratch r payload scratch) with ⟨reps, st2, scr2, ctl⟩
      cases ctl with
      | next =>
        rw [handleOps_cons_next B r payload rs st scratch reps st2 scr2 hscr hone]
        obtain ⟨e, d, hreps⟩ :=
          (handleOne_shape B r st (getScratch r payload scratch)).1 (by rw [hone])
        rw [hone] at hreps
        subst hreps
        simp only [List.map_cons, List.map_append, List.singleton_append,
          List.length_cons, List.map_nil]
        rw [List.take_succ_cons, ih]
      | stop o =>
        rw [handleOps_cons_stop B r payload rs st scratch reps st2 scr2 o hscr hone]
        rcases (handleOne_shape B r st (getScratch r payload scratch)).2 with hreps | ⟨e, d, hreps⟩ <;>
          rw [hone] at hreps <;> subst hreps <;> simp
    · unfold handleOps
      rw [if_neg hscr]
      simp

/-- Claim C7: flush failure is session-fatal while read/write I/O failures are
per-request.  If the backing store's flush fails, `handle_ops` returns the error
and emits no reply for that FLUSH request; if a READ's or WRITE's backing-store
operation fails, the error kind is translated to an NBD error code, returned in
a simple reply echoing the handle, and the request loop continues (with the
store state unchanged, and for WRITE with the payload still in the scratch). -/
theorem c7_flush_fatal_vs_io_errors {σ : Type} (B : BlocksImpl σ) (st : σ)
    (scratch : List Nat) (rs : List (Request × List Nat)) (hdl off : Nat)
    (payload : List Nat) (e k : IoErrorKind)
    (hscr : scratch.length = scratchLen) :
    (B.flush st = RRes.err e →
        handleOps B ((⟨Cmd.flush, hdl, 0, 0, 0⟩, []) :: rs) st scratch
          = ([], st, Outcome.ioFatal e)) ∧
    (∀ len, len ≤ scratchLen → B.readAt st len off = RRes.err k →
        handleOps B ((⟨Cmd.read, hdl, off, len, 0⟩, []) :: rs) st scratch
          = (⟨fromIoKind k, hdl, []⟩ :: (handleOps B rs st scratch).1,
             (handleOps B rs st scratch).2)) ∧
    (payload.length ≤ scratchLen → B.writeAt st payload off = RRes.err k →
        handleOps B
            ((⟨Cmd.write, hdl, off, payload.length, payload.length⟩, payload) :: rs)
            st scratch
          = (⟨fromIoKind k, hdl, []⟩ ::
               (handleOps B rs st (payload ++ scratch.drop payload.length)).1,
             (handleOps B rs st (payload ++ scratch.drop payload.length)).2)) := by
  refine ⟨?_, ?_, ?_⟩
  · intro hf
    refine handleOps_cons_stop B _ [] rs st scratch [] st scratch (Outcome.ioFatal e)
      hscr ?_
    rw [getScratch_not_write _ _ (by simp)]
    unfold handleOne
    dsimp only
    rw [hf]
  · intro len hlen hrd
    have hexp : exportRead B st off len scratch = RRes.err (fromIoKind k) := by
      unfold exportRead
      rw [if_neg (by omega), hrd]
    have hone : handleOne B ⟨Cmd.read, hdl, off, len, 0⟩ st
        (getScratch ⟨Cmd.read, hdl, off, len, 0⟩ [] scratch)
        = ([⟨fromIoKind k, hdl, []⟩], st, scratch, LoopCtl.next) := by
      rw [getScratch_not_write _ _ (by simp)]
      unfold handleOne
      dsimp only
      rw [hexp]
    rw [handleOps_cons_next B _ [] rs st scratch _ st scratch hscr hone]
    simp
  · intro hp hwr
    have hexp : exportWrite B st off payload.length (payload ++ scratch.drop payload.length)
        = RRes.err (fromIoKind k) := by
      unfold exportWrite
      have hsl : (payload ++ scratch.drop payload.length).length = scratchLen := by
        simp only [List.length_append, List.length_drop]
        omega
      rw [if_neg (by omega), List.take_left' rfl, hwr]
    have hone : handleOne B ⟨Cmd.write, hdl, off, payload.length, payload.length⟩ st
        (getScratch ⟨Cmd.write, hdl, off, payload.length, payload.length⟩ payload scratch)
        = ([⟨fromIoKind k, hdl, []⟩], st, payload ++ scratch.drop payload.length,
           LoopCtl.next) := by
      rw [getScratch_write _ _ rfl]
      unfold handleOne
      dsimp only
      rw [hexp]
    rw [handleOps_cons_next B _ payload rs st scratch _ st
      (payload ++ scratch.drop payload.length) hscr hone]
    simp

/-- Claim C7, witness: the three error paths against a store whose read, write
and flush all fail with an uncategorized I/O error. -/
theorem c7_witness :
    handleOps failBlocks [(⟨Cmd.flush, 7, 0, 0, 0⟩, [])] () scratch0
      = ([], (), Outcome.ioFatal IoErrorKind.other) ∧
    handleOps failBlocks [(⟨Cmd.read, 7, 3, 2, 0⟩, [])] () scratch0
      = (⟨fromIoKind IoErrorKind.other, 7, []⟩ :: (handleOps failBlocks [] () scratch0).1,
         (handleOps failBlocks [] () scratch0).2) ∧
    handleOps failBlocks [(⟨Cmd.write, 7, 3, List.length [5], List.length [5]⟩, [5])] ()
        scratch0
      = (⟨fromIoKind IoErrorKind.other, 7, []⟩ ::
           (handleOps failBlocks [] () ([5] ++ scratch0.drop (List.length [5]))).1,
         (handleOps failBlocks [] () ([5] ++ scratch0.drop (List.length [5]))).2) :=
  ⟨(c7_flush_fatal_vs_io_errors failBlocks () scratch0 [] 7 3 [5] IoErrorKind.other
      IoErrorKind.other (by simp [scratch0])).1 rfl,
   (c7_flush_fatal_vs_io_errors failBlocks () scratch0 [] 7 3 [5] IoErrorKind.other
      IoErrorKind.other (by simp [scratch0])).2.1 2 (by decide) rfl,
   (c7_flush_fatal_vs_io_errors failBlocks () scratch0 [] 7 3 [5] IoErrorKind.other
      IoErrorKind.other (by simp [scratch0])).2.2 (by decide) rfl⟩

/-- Claim C8: clean end-of-stream at a request boundary is not an error — with
the stream exhausted, the transmission loop returns the normal outcome (a client
disconnect) — whereas a stream that ends with a partial request frame (fewer
than the 28 header bytes remaining) makes the loop close the session with a
protocol error. -/
theorem c8_eof_boundary {σ : Type} (B : BlocksImpl σ) (st : σ) (scratch : List Nat)
    (s : List Nat) (hscr : scratch.length = scratchLen) :
    handleOpsBytes B [] st scratch = ([], st, Outcome.normal) ∧
    (0 < s.length → s.length < 28 →
        handleOpsBytes B s st scratch = ([], st, Outcome.protoFatal)) := by
  constructor
  · unfold handleOpsBytes
    rw [if_pos hscr]
    split
    · rename_i heq
      simp [requestGet] at heq
    · rfl
    · rename_i heq
      simp [requestGet] at heq
  · intro h0 h28
    have hget : requestGet s scratch = Except.error () := by
      cases s with
      | nil => simp at h0
      | cons b t =>
        simp only [List.length_cons] at h28
        unfold requestGet
        have hp : parseReqFrame (b :: t) scratch = none := by
          unfold parseReqFrame
          rw [if_neg (by simp only [List.length_cons]; omega)]
        rw [hp]
    unfold handleOpsBytes
    rw [if_pos hscr]
    split
    · rfl
    · rename_i heq
      rw [hget] at heq
      simp at heq
    · rename_i heq
      rw [hget] at heq
      simp at heq

/-- Claim C8, witness: the empty stream and a 3-byte partial frame. -/
theorem c8_witness :
    handleOpsBytes failBlocks [] () scratch0 = ([], (), Outcome.normal) ∧
    handleOpsBytes failBlocks [9, 9, 9] () scratch0 = ([], (), Outcome.protoFatal) :=
  ⟨(c8_eof_boundary failBlocks () scratch0 [9, 9, 9] (by simp [scratch0])).1,
   (c8_eof_boundary failBlocks () scratch0 [9, 9, 9] (by simp [scratch0])).2
     (by decide) (by decide)⟩

/-- Claim C10: a READ whose length exceeds the 256 KiB scratch buffer is
rejected by `Export::read` with EOVERFLOW before the backing store is consulted
(the result holds for every backing store uniformly), the server sends a simple
reply EOVERFLOW echoing the handle with no payload, and the request loop
continues with the scratch buffer unchanged (still 4096 * 64 bytes long). -/
theorem c10_oversized_read {σ : Type} (B : BlocksImpl σ) (st : σ) (scratch : List Nat)
    (rs : List (Request × List Nat)) (hdl off len : Nat)
    (hlen : scratchLen < len) (hscr : scratch.length = scratchLen) :
    exportRead B st off len scratch = RRes.err EOVERFLOW ∧
    handleOps B ((⟨Cmd.read, hdl, off, len, 0⟩, []) :: rs) st scratch
      = (⟨EOVERFLOW, hdl, []⟩ :: (handleOps B rs st scratch).1,
         (handleOps B rs st scratch).2) := by
  have hexp : exportRead B st off len scratch = RRes.err EOVERFLOW := by
    unfold exportRead
    rw [if_pos (by omega)]
  refine ⟨hexp, ?_⟩
  have hone : handleOne B ⟨Cmd.read, hdl, off, len, 0⟩ st
      (getScratch ⟨Cmd.read, hdl, off, len, 0⟩ [] scratch)
      = ([⟨EOVERFLOW, hdl, []⟩], st, scratch, LoopCtl.next) := by
    rw [getScratch_not_write _ _ (by simp)]
    unfold handleOne
    dsimp only
    rw [hexp]
  rw [handleOps_cons_next B _ [] rs st scratch _ st scratch hscr hone]
  simp

/-- Claim C10, witness: a READ of 4096 * 64 + 1 bytes against a 2-byte memory
export. -/
theorem c10_witness :
    exportRead memBlocksImpl [0, 0] 0 (scratchLen + 1) scratch0 = RRes.err EOVERFLOW ∧
    handleOps memBlocksImpl [(⟨Cmd.read, 9, 0, scratchLen + 1, 0⟩, [])] [0, 0] scratch0
      = (⟨EOVERFLOW, 9, []⟩ :: (handleOps memBlocksImpl [] [0, 0] scratch0).1,
         (handleOps memBlocksImpl [] [0, 0] scratch0).2) :=
  c10_oversized_read memBlocksImpl [0, 0] scratch0 [] 9 0 (scratchLen + 1)
    (by omega) (by simp [scratch0])

end Nbd
